import Mathlib

/-!
Verification of the `responses` HTTP JSON response package (Backend-Go-Proj).

The development shallowly embeds the Go source:
  * `types.go` (Response, ErrorInfo, RequestInfo),
  * `statusconfig.go` (statusConfigMap, getMessageForStatus, GetStatusConfig),
  * `clientip.go` (getClientIP, extractRequestInfo, with models of
    net.ParseIP, net.SplitHostPort, strings.Split and strings.TrimSpace),
  * `response.go` (HTTPResponse) and the legacy
    `utils/responses/httpresponses.go` (validateStatusCode, JSONResponse).

Side effects are made explicit: the logger becomes a list of `LogRecord`s,
the `http.ResponseWriter` becomes an `HttpOutput` record collecting headers,
status-line writes and the JSON body; `encoding/json` becomes a total
encoder into a `Json` value type, with `Except` capturing encode failures.
-/

namespace Responses

/-- Model of a JSON value, the target of Go `encoding/json` marshaling.
Objects keep fields in emission order, so at this level of abstraction the
value determines the serialized bytes. -/
inductive Json where
  | str : String → Json
  | num : Int → Json
  | arr : List Json → Json
  | obj : List (String × Json) → Json

/-- Look a key up in an ordered field list (first occurrence wins). -/
def lookupKey : List (String × Json) → String → Option Json
  | [], _ => none
  | (k, v) :: rest, key => if k = key then some v else lookupKey rest key

/-- Field lookup on a JSON value; `none` on non-objects. -/
def Json.lookupField : Json → String → Option Json
  | Json.obj fields, key => lookupKey fields key
  | _, _ => none

/-- slog.LevelInfo. -/
def LevelInfo : Int := 0
/-- slog.LevelWarn. -/
def LevelWarn : Int := 4
/-- slog.LevelError. -/
def LevelError : Int := 8

/-- Value of a structured log attribute (`slog.Attr` values used here:
`slog.Int`, `slog.String`, `slog.Any` on a `map[string]string`, and
`slog.Any` on an `error`). -/
inductive AttrVal where
  | int : Int → AttrVal
  | str : String → AttrVal
  | dict : Option (List (String × String)) → AttrVal
  | errv : String → AttrVal
deriving DecidableEq, Repr

/-- A `slog.Attr` key/value pair. -/
structure Attr where
  key : String
  val : AttrVal
deriving DecidableEq, Repr

/-- One structured log record sent to the logger. -/
structure LogRecord where
  level : Int
  msg : String
  attrs : List Attr
deriving DecidableEq, Repr

/-- `ErrorInfo` from types.go: error type tag plus optional
`map[string]string` details (`none` models a nil map). -/
structure ErrorInfo where
  Type' : String
  Details : Option (List (String × String))
deriving DecidableEq, Repr

/-- The `data interface{}` payload handed to dispatch: nil, a
JSON-serializable value, or a value `encoding/json` cannot marshal
(function, channel, ...); the tag stands for the offending Go type. -/
inductive Payload where
  | nilP : Payload
  | val : Json → Payload
  | bad : String → Payload

/-- `Response` from types.go: the response envelope. -/
structure Response where
  Status : String
  StatusCode : Int
  Message : String
  Data : Payload
  Error : Option ErrorInfo

/-- `RequestInfo` from types.go. -/
structure RequestInfo where
  Method : String
  Path : String
  UserAgent : String
  RemoteIP : String
deriving DecidableEq, Repr

/-- `StatusConfig` from statusconfig.go, fields in source order. -/
structure StatusConfig where
  LogLevel : Int
  DefaultMessage : String
  ErrorType : String
deriving DecidableEq, Repr

/-- `statusConfigMap` from statusconfig.go, as a lookup function (Go map
access `statusConfigMap[statusCode]` with its `exists` flag becomes an
`Option`).  Entries carry the Go zero values for omitted fields
(`LogLevel` info = 0, `ErrorType` empty). -/
def statusConfigMap (c : Int) : Option StatusConfig :=
  if c = 200 then some ⟨LevelInfo, "Request was successful", ""⟩
  else if c = 201 then some ⟨LevelInfo, "Resource created successfully", ""⟩
  else if c = 202 then some ⟨LevelInfo, "Request accepted", ""⟩
  else if c = 204 then some ⟨LevelInfo, "Request completed successfully", ""⟩
  else if c = 400 then some ⟨LevelWarn, "The request contains invalid data", "validation_error"⟩
  else if c = 401 then some ⟨LevelWarn, "Authentication is required to access this resource", "authentication_error"⟩
  else if c = 403 then some ⟨LevelWarn, "You do not have permission to access this resource", "authorization_error"⟩
  else if c = 404 then some ⟨LevelInfo, "The requested resource was not found", "not_found"⟩
  else if c = 405 then some ⟨LevelWarn, "The requested method is not allowed for this resource", "method_not_allowed"⟩
  else if c = 409 then some ⟨LevelWarn, "The request could not be completed due to a conflict with the current state of the resource", "conflict"⟩
  else if c = 422 then some ⟨LevelWarn, "The request was well-formed but could not be processed due to semantic errors", "unprocessable_entity"⟩
  else if c = 429 then some ⟨LevelWarn, "Too many requests have been made in a given amount of time", "rate_limit_exceeded"⟩
  else if c = 500 then some ⟨LevelError, "An unexpected error occurred on the server", "internal_server_error"⟩
  else if c = 501 then some ⟨LevelError, "The requested functionality is not implemented", "not_implemented"⟩
  else if c = 502 then some ⟨LevelError, "The server received an invalid response from an upstream server", "bad_gateway"⟩
  else if c = 503 then some ⟨LevelError, "The server is currently unable to handle the request due to temporary overload or maintenance", "service_unavailable"⟩
  else if c = 504 then some ⟨LevelError, "The server did not receive a timely response from an upstream server", "gateway_timeout"⟩
  else if c = 505 then some ⟨LevelError, "The server does not support the HTTP protocol version used in the request", "http_version_not_supported"⟩
  else if c = 506 then some ⟨LevelError, "The server has an internal configuration error and cannot complete the request", "variant_also_negotiates"⟩
  else none

/-- `GetStatusConfig` from statusconfig.go. -/
def GetStatusConfig (statusCode : Int) : Option StatusConfig × Bool :=
  match statusConfigMap statusCode with
  | some cfg => (some cfg, true)
  | none => (none, false)

/-- `getMessageForStatus` from statusconfig.go. -/
def getMessageForStatus (statusCode : Int) (providedMessage : String) : String :=
  if providedMessage ≠ "" then providedMessage
  else
    match statusConfigMap statusCode with
    | some config => config.DefaultMessage
    | none =>
      if 200 ≤ statusCode ∧ statusCode < 300 then "Request completed successfully"
      else if 300 ≤ statusCode ∧ statusCode < 400 then "Request requires further action"
      else if 400 ≤ statusCode ∧ statusCode < 500 then "Client error occurred"
      else if 500 ≤ statusCode then "Server error occurred"
      else "Response completed"

/-- The spec's `resolve_message` contract, written from the spec's words:
return the provided message if non-empty; else the registry's default
message if the code is known; else the generic fallback selected by the
code's hundreds-digit class. -/
def resolveMessageSpec (statusCode : Int) (providedMessage : String) : String :=
  if providedMessage ≠ "" then providedMessage
  else
    match statusConfigMap statusCode with
    | some config => config.DefaultMessage
    | none =>
      if 200 ≤ statusCode ∧ statusCode < 300 then "Request completed successfully"
      else if 300 ≤ statusCode ∧ statusCode < 400 then "Request requires further action"
      else if 400 ≤ statusCode ∧ statusCode < 500 then "Client error occurred"
      else if 500 ≤ statusCode then "Server error occurred"
      else "Response completed"

example : getMessageForStatus 400 "" = "The request contains invalid data" := by rfl
example : getMessageForStatus 418 "" = "Client error occurred" := by rfl
example : getMessageForStatus 302 "" = "Request requires further action" := by rfl
example : getMessageForStatus 99 "" = "Response completed" := by rfl
example : getMessageForStatus 404 "custom" = "custom" := by rfl

/-- The whitespace set trimmed by Go `strings.TrimSpace` (`unicode.IsSpace`
on the characters that occur in header values: ASCII space characters plus
NEL and NBSP). -/
def isSpaceChar (c : Char) : Bool :=
  c == ' ' || c == '\t' || c == '\n' || c == '\x0b' || c == '\x0c' || c == '\r' ||
    c == '\x85' || c == '\xa0'

/-- Go `strings.Split` with separator ",": accumulate characters up to each
comma.  `strings.Split("", ",")` is `[""]`, as in Go. -/
def splitOnCommaAux : List Char → List Char → List String
  | [], acc => [String.mk acc.reverse]
  | c :: rest, acc =>
    if c = ',' then String.mk acc.reverse :: splitOnCommaAux rest []
    else splitOnCommaAux rest (c :: acc)

/-- Go `strings.Split(s, ",")`. -/
def splitOnComma (s : String) : List String := splitOnCommaAux s.data []

/-- Go `strings.TrimSpace`. -/
def trimSpace (s : String) : String :=
  String.mk (((s.data.dropWhile isSpaceChar).reverse.dropWhile isSpaceChar).reverse)

/-- Go net's `dtoi`: read a decimal prefix, returning value and characters
consumed; `none` when no digit starts the string or the value reaches the
`big` bound 0xFFFFFF. -/
def dtoiAux : List Char → Nat → Nat → Option (Nat × Nat)
  | [], n, i => if i = 0 then none else some (n, i)
  | c :: rest, n, i =>
    if '0' ≤ c ∧ c ≤ '9' then
      let n' := n * 10 + (c.toNat - '0'.toNat)
      if 0xFFFFFF ≤ n' then none else dtoiAux rest n' (i + 1)
    else if i = 0 then none else some (n, i)

/-- Entry point of `dtoi`. -/
def dtoi (cs : List Char) : Option (Nat × Nat) := dtoiAux cs 0 0

/-- Hexadecimal digit value, as in Go net's `xtoi`. -/
def hexVal (c : Char) : Option Nat :=
  if '0' ≤ c ∧ c ≤ '9' then some (c.toNat - '0'.toNat)
  else if 'a' ≤ c ∧ c ≤ 'f' then some (c.toNat - 'a'.toNat + 10)
  else if 'A' ≤ c ∧ c ≤ 'F' then some (c.toNat - 'A'.toNat + 10)
  else none

/-- Go net's `xtoi`: read a hexadecimal prefix with the same `big` bound. -/
def xtoiAux : List Char → Nat → Nat → Option (Nat × Nat)
  | [], n, i => if i = 0 then none else some (n, i)
  | c :: rest, n, i =>
    match hexVal c with
    | some v =>
      let n' := n * 16 + v
      if 0xFFFFFF ≤ n' then none else xtoiAux rest n' (i + 1)
    | none => if i = 0 then none else some (n, i)

/-- Entry point of `xtoi`. -/
def xtoi (cs : List Char) : Option (Nat × Nat) := xtoiAux cs 0 0

/-- One dotted-decimal IPv4 field of Go net's `parseIPv4`: value ≤ 255 and
no leading zero (a multi-digit field may not start with '0'); returns the
remaining characters. -/
def ipv4Field (cs : List Char) : Option (List Char) :=
  match dtoi cs with
  | none => none
  | some (n, consumed) =>
    if 255 < n then none
    else if 1 < consumed ∧ cs.head? = some '0' then none
    else some (cs.drop consumed)

/-- The four-field loop of Go net's `parseIPv4`; `first` marks the field
that is not preceded by a '.' separator. -/
def v4Loop : Nat → Bool → List Char → Bool
  | 0, _, cs => cs.isEmpty
  | fields + 1, first, cs =>
    match (if first then some cs else match cs with | '.' :: rest => some rest | _ => none) with
    | none => false
    | some cs1 =>
      match ipv4Field cs1 with
      | none => false
      | some rest => v4Loop fields false rest

/-- Validity part of Go net's `parseIPv4`. -/
def parseIPv4 (cs : List Char) : Bool := v4Loop 4 true cs

/-- Final checks after Go net's `parseIPv6` loop: input consumed, and an
ellipsis was seen exactly when fewer than 16 bytes were produced. -/
def v6Finish (i : Nat) (ell : Bool) (cs : List Char) : Bool :=
  cs.isEmpty && (if i < 16 then ell else !ell)

/-- The group loop of Go net's `parseIPv6`: `i` counts bytes produced,
`ell` records whether a `::` ellipsis has been seen.  Each iteration
consumes one hex group (or an embedded IPv4 tail), so fuel 16 covers the
at most 8 iterations of the Go loop. -/
def v6Loop : Nat → Nat → Bool → List Char → Bool
  | 0, _, _, _ => false
  | fuel + 1, i, ell, cs =>
    if 16 ≤ i then v6Finish i ell cs
    else
      match xtoi cs with
      | none => false
      | some (n, consumed) =>
        if 0xFFFF < n then false
        else
          match cs.drop consumed with
          | '.' :: _ =>
            if ell = false ∧ i ≠ 12 then false
            else if 16 < i + 4 then false
            else if parseIPv4 cs then v6Finish (i + 4) ell []
            else false
          | rest =>
            match rest with
            | [] => v6Finish (i + 2) ell []
            | ':' :: rest1 =>
              match rest1 with
              | [] => false
              | ':' :: rest2 =>
                if ell then false
                else
                  match rest2 with
                  | [] => v6Finish (i + 2) true []
                  | _ => v6Loop fuel (i + 2) true rest2
              | _ => v6Loop fuel (i + 2) ell rest1
            | _ => false

/-- Validity part of Go net's `parseIPv6`, including the leading `::`
special case. -/
def parseIPv6 (cs : List Char) : Bool :=
  match cs with
  | ':' :: ':' :: rest =>
    match rest with
    | [] => true
    | _ => v6Loop 16 0 true rest
  | _ => v6Loop 16 0 false cs

/-- Dispatch of Go `net.ParseIP`: scan for the first '.' or ':' and parse
the whole string as IPv4 or IPv6 accordingly; here only validity
(non-nilness of the result) is kept. -/
def ipKind : List Char → Option Bool
  | [] => none
  | '.' :: _ => some true
  | ':' :: _ => some false
  | _ :: rest => ipKind rest

/-- Validity of Go `net.ParseIP`: `true` exactly when `ParseIP` returns a
non-nil IP. -/
def goParseIP (s : String) : Bool :=
  match ipKind s.data with
  | some true => parseIPv4 s.data
  | some false => parseIPv6 s.data
  | none => false

/-- First index of a character in a list. -/
def firstIdxOf (c : Char) : List Char → Option Nat
  | [] => none
  | x :: xs => if x = c then some 0 else (firstIdxOf c xs).map (· + 1)

/-- Last index of a character in a list. -/
def lastIdxOf (c : Char) (cs : List Char) : Option Nat :=
  match firstIdxOf c cs.reverse with
  | some i => some (cs.length - 1 - i)
  | none => none

/-- Go `net.SplitHostPort`, restricted to the host result: `some host`
when the split succeeds, `none` on any of its error returns (missing port,
too many colons, stray brackets). -/
def splitHostPortHost (s : String) : Option String :=
  let cs := s.data
  match lastIdxOf ':' cs with
  | none => none
  | some i =>
    match cs with
    | '[' :: _ =>
      match firstIdxOf ']' cs with
      | none => none
      | some e =>
        if e + 1 = cs.length then none
        else if e + 1 = i then
          if (cs.drop 1).contains '[' then none
          else if (cs.drop (e + 1)).contains ']' then none
          else some (String.mk ((cs.take e).drop 1))
        else none
    | _ =>
      let host := cs.take i
      if host.contains ':' then none
      else if cs.contains '[' then none
      else if cs.contains ']' then none
      else some (String.mk host)

/-- The inbound request abstraction: the fields of `*http.Request` that the
package reads.  Header lookups are modelled by their `Header.Get` result,
the empty string standing for an absent header. -/
structure Request where
  method : String
  path : String
  userAgent : String
  xForwardedFor : String
  xRealIP : String
  remoteAddr : String
deriving DecidableEq, Repr

/-- `getClientIP` from clientip.go: X-Forwarded-For token scan, then
X-Real-IP, then the host part of RemoteAddr, then RemoteAddr verbatim. -/
def getClientIP (r : Request) : String :=
  match (if r.xForwardedFor ≠ "" then
      List.find? goParseIP ((splitOnComma r.xForwardedFor).map trimSpace)
    else none) with
  | some ip => ip
  | none =>
    match (if r.xRealIP ≠ "" then
        (if goParseIP (trimSpace r.xRealIP) then some (trimSpace r.xRealIP) else none)
      else none) with
    | some ip => ip
    | none =>
      match splitHostPortHost r.remoteAddr with
      | some host => if goParseIP host then host else r.remoteAddr
      | none => r.remoteAddr

/-- `extractRequestInfo` from clientip.go. -/
def extractRequestInfo (r : Request) : RequestInfo :=
  { Method := r.method, Path := r.path, UserAgent := r.userAgent, RemoteIP := getClientIP r }

/-- The spec's client-IP `resolve` contract, written from the spec's words:
split X-Forwarded-For on commas, trim each token and take the first valid
IP literal; else the trimmed X-Real-IP when valid; else the host part of
the host:port remote address when valid; else the raw remote address. -/
def resolveClientIPSpec (r : Request) : String :=
  match List.find? goParseIP ((splitOnComma r.xForwardedFor).map trimSpace) with
  | some ip => ip
  | none =>
    if goParseIP (trimSpace r.xRealIP) then trimSpace r.xRealIP
    else
      match splitHostPortHost r.remoteAddr with
      | some host => if goParseIP host then host else r.remoteAddr
      | none => r.remoteAddr

example : goParseIP "8.8.8.8" = true := by rfl
example : goParseIP "9.9.9.9" = true := by rfl
example : goParseIP "not-an-ip" = false := by rfl
example : goParseIP "256.1.1.1" = false := by rfl
example : goParseIP "01.2.3.4" = false := by rfl
example : goParseIP "1.2.3" = false := by rfl
example : goParseIP "::1" = true := by rfl
example : goParseIP "::" = true := by rfl
example : goParseIP "2001:db8::ff00:42:8329" = true := by rfl
example : goParseIP "::ffff:1.2.3.4" = true := by rfl
example : goParseIP "1:2:3:4:5:6:7:8" = true := by rfl
example : goParseIP "1:2:3:4:5:6:7:8:9" = false := by rfl
example : goParseIP ":::" = false := by rfl
example : goParseIP "1.2.3.4:80" = false := by rfl
example : splitHostPortHost "6.6.6.6:1234" = some "6.6.6.6" := by rfl
example : splitHostPortHost "[::1]:80" = some "::1" := by rfl
example : splitHostPortHost "6.6.6.6" = none := by rfl
example : splitHostPortHost "1:2:3::4:80" = none := by rfl

/-- Request with the given proxy headers and remote address, for examples. -/
def sampleReq (xff xri ra : String) : Request :=
  ⟨"GET", "/", "agent", xff, xri, ra⟩

example : getClientIP (sampleReq "8.8.8.8, 9.9.9.9" "" "192.0.2.1:1234") = "8.8.8.8" := by rfl
example : getClientIP (sampleReq "not-an-ip, 9.9.9.9" "" "192.0.2.1:1234") = "9.9.9.9" := by rfl
example : getClientIP (sampleReq "" "7.7.7.7" "192.0.2.1:1234") = "7.7.7.7" := by rfl
example : getClientIP (sampleReq "" "" "6.6.6.6:1234") = "6.6.6.6" := by rfl
example : getClientIP (sampleReq "" "" "garbage") = "garbage" := by rfl

/-- Byte-order comparison of strings, as Go `encoding/json` sorts map keys. -/
def charListLt : List Char → List Char → Bool
  | [], [] => false
  | [], _ :: _ => true
  | _ :: _, [] => false
  | a :: as, b :: bs => if a < b then true else if b < a then false else charListLt as bs

/-- Insert a pair into a key-sorted association list. -/
def insertByKey (p : String × String) : List (String × String) → List (String × String)
  | [] => [p]
  | q :: rest => if charListLt q.1.data p.1.data then q :: insertByKey p rest else p :: q :: rest

/-- Sort an association list by key, as Go `encoding/json` emits maps. -/
def sortByKey : List (String × String) → List (String × String)
  | [] => []
  | p :: rest => insertByKey p (sortByKey rest)

/-- Marshal a `map[string]string` (keys in sorted order, per encoding/json). -/
def encodeStrMap (l : List (String × String)) : Json :=
  Json.obj ((sortByKey l).map (fun p => (p.1, Json.str p.2)))

/-- Marshal `ErrorInfo`: `type` always, `details` omitted when the map is
nil or empty (`omitempty` on a map checks its length). -/
def encodeErrorInfo (ei : ErrorInfo) : Json :=
  Json.obj ([("type", Json.str ei.Type')] ++
    (match ei.Details with
     | some l => if l.isEmpty then [] else [("details", encodeStrMap l)]
     | none => []))

/-- Marshal the `data interface{}` field: `none` result means omitted
(`omitempty` on an interface checks nilness); a `bad` payload is the
marshal error `json.NewEncoder(w).Encode` reports. -/
def encodePayload : Payload → Except String (Option Json)
  | Payload.nilP => Except.ok none
  | Payload.val j => Except.ok (some j)
  | Payload.bad t => Except.error ("json: unsupported type: " ++ t)

/-- Marshal the `Response` envelope as `encoding/json` does: struct fields
in declaration order, `data` and `error` omitted when absent. -/
def encodeResponse (resp : Response) : Except String Json :=
  match encodePayload resp.Data with
  | Except.error e => Except.error e
  | Except.ok dataField =>
    Except.ok (Json.obj
      ([("status", Json.str resp.Status), ("statusCode", Json.num resp.StatusCode),
        ("message", Json.str resp.Message)] ++
        (match dataField with | some j => [("data", j)] | none => []) ++
        (match resp.Error with | some ei => [("error", encodeErrorInfo ei)] | none => [])))

/-- The warning `validateStatusCode` sends to the logger for an
out-of-range code. -/
def invalidCodeWarn (c : Int) : LogRecord :=
  ⟨LevelWarn, "Invalid HTTP status code provided, using 500", [⟨"provided_code", AttrVal.int c⟩]⟩

/-- `validateStatusCode` from httpresponses.go, with its logger side effect
made explicit as the second component. -/
def validateStatusCode (statusCode : Int) : Int × List LogRecord :=
  if statusCode < 100 ∨ 599 < statusCode then (500, [invalidCodeWarn statusCode])
  else (statusCode, [])

/-- The warning dispatch sends to the logger when called with nil request. -/
def nilRequestWarn : LogRecord := ⟨LevelWarn, "JSON response called with nil request", []⟩

/-- The `status` string of the envelope (response.go lines 29 and 34-35). -/
def statusOf (c : Int) : String := if 400 ≤ c then "error" else "success"

/-- The error-type selection of response.go lines 37-40: the registered
profile's type when present and non-empty, else `"unknown_error"`. -/
def errorTypeFor (c : Int) : String :=
  match statusConfigMap c with
  | some config => if config.ErrorType ≠ "" then config.ErrorType else "unknown_error"
  | none => "unknown_error"

/-- The `errorInfo` pointer of response.go lines 30 and 42-45: built only
on the error path. -/
def errorInfoOf (c : Int) (details : Option (List (String × String))) : Option ErrorInfo :=
  if 400 ≤ c then some ⟨errorTypeFor c, details⟩ else none

/-- Log-level selection of response.go lines 61-68. -/
def logLevelOf (c : Int) : Int :=
  match statusConfigMap c with
  | some config => config.LogLevel
  | none => if 500 ≤ c then LevelError else if 400 ≤ c then LevelWarn else LevelInfo

/-- Log-message selection of response.go lines 95-100. -/
def logMessageOf (c : Int) : String :=
  if 500 ≤ c then "HTTP server error response sent"
  else if 400 ≤ c then "HTTP client error response sent"
  else "HTTP response sent"

/-- The accumulated structured log attributes of response.go lines 72-87. -/
def logAttrsOf (c : Int) (status message : String) (info : RequestInfo)
    (errorInfo : Option ErrorInfo) : List Attr :=
  [⟨"statusCode", AttrVal.int c⟩, ⟨"status", AttrVal.str status⟩,
   ⟨"message", AttrVal.str message⟩, ⟨"method", AttrVal.str info.Method⟩,
   ⟨"path", AttrVal.str info.Path⟩, ⟨"user_agent", AttrVal.str info.UserAgent⟩,
   ⟨"remote_ip", AttrVal.str info.RemoteIP⟩] ++
  (match errorInfo with
   | some ei => [⟨"error_type", AttrVal.str ei.Type'⟩, ⟨"error_details", AttrVal.dict ei.Details⟩]
   | none => [])

/-- The three headers both dispatch variants set on every response. -/
def stdHeaders : List (String × String) :=
  [("Content-Type", "application/json"), ("X-Content-Type-Options", "nosniff"),
   ("Cache-Control", "no-cache, no-store, must-revalidate")]

/-- Everything one dispatch call produces: response headers, the
`WriteHeader` calls in order, the JSON body (none when encoding failed),
the log records in order, and — for specification purposes — the envelope
that was built and the request snapshot that was used. -/
structure HttpOutput where
  headers : List (String × String)
  statusLines : List Int
  body : Option Json
  logs : List LogRecord
  envelope : Response
  snapshot : RequestInfo

/-- The Go zero value of `RequestInfo`, which response.go leaves in place
when the request is nil. -/
def zeroRequestInfo : RequestInfo := ⟨"", "", "", ""⟩

/-- The all-"UNKNOWN" placeholder snapshot of httpresponses.go lines
198-203. -/
def unknownRequestInfo : RequestInfo := ⟨"UNKNOWN", "UNKNOWN", "UNKNOWN", "UNKNOWN"⟩

/-- The snapshot response.go uses: extracted from the request, or left at
the zero value when the request is nil (lines 20-25). -/
def hrSnapshotOf : Option Request → RequestInfo
  | some req => extractRequestInfo req
  | none => zeroRequestInfo

/-- The snapshot httpresponses.go uses: extracted from the request, or the
all-"UNKNOWN" placeholder when the request is nil (lines 194-205). -/
def jrSnapshotOf : Option Request → RequestInfo
  | some req => extractRequestInfo req
  | none => unknownRequestInfo

/-- The nil-request warning both variants emit. -/
def nilWarnOf : Option Request → List LogRecord
  | some _ => []
  | none => [nilRequestWarn]

/-- `HTTPResponse` from response.go (the dispatch entry point), as a pure
function from its arguments to everything it writes and logs.  A nil
`*http.Request` is `none`.  The status line is written before the body is
encoded, so it appears even when encoding fails; on encode failure the
error record replaces the final per-response record. -/
def HTTPResponse (r : Option Request) (statusCode0 : Int) (message0 : String)
    (data : Payload) (details : Option (List (String × String))) : HttpOutput :=
  let v := validateStatusCode statusCode0
  let statusCode := v.1
  let reqInfo := hrSnapshotOf r
  let message := getMessageForStatus statusCode message0
  let status := statusOf statusCode
  let errorInfo := errorInfoOf statusCode details
  let resp : Response := ⟨status, statusCode, message, data, errorInfo⟩
  let logAttrs := logAttrsOf statusCode status message reqInfo errorInfo
  { headers := stdHeaders
    statusLines := [statusCode]
    body := (match encodeResponse resp with
      | Except.ok j => some j
      | Except.error _ => none)
    logs := v.2 ++ nilWarnOf r ++
      [(match encodeResponse resp with
        | Except.error e =>
          ⟨LevelError, "Failed to encode JSON response",
            logAttrs ++ [⟨"encoding_error", AttrVal.errv e⟩]⟩
        | Except.ok _ => ⟨logLevelOf statusCode, logMessageOf statusCode, logAttrs⟩)]
    envelope := resp
    snapshot := reqInfo }

/-- `JSONResponse` from utils/responses/httpresponses.go, the legacy
dispatch variant.  Its `extractRequestInfo` (returning a
`map[string]interface{}`) is not among the sources; modelled from the
spec: the §4.3 snapshot of method, URL path, user agent and resolved
client IP.  Source line 238 logs `config.LogLevel` where `config` is not
in scope (the file does not compile as given); that statement is omitted
here and no other behaviour depends on it. -/
def JSONResponse (r : Option Request) (statusCode0 : Int) (message0 : String)
    (data : Payload) (details : Option (List (String × String))) : HttpOutput :=
  let v := validateStatusCode statusCode0
  let statusCode := v.1
  let message := getMessageForStatus statusCode message0
  let reqInfo := jrSnapshotOf r
  let status := statusOf statusCode
  let errorInfo := errorInfoOf statusCode details
  let resp : Response := ⟨status, statusCode, message, data, errorInfo⟩
  let logAttrs := logAttrsOf statusCode status message reqInfo errorInfo
  { headers := stdHeaders
    statusLines := [statusCode]
    body := (match encodeResponse resp with
      | Except.ok j => some j
      | Except.error _ => none)
    logs := v.2 ++ nilWarnOf r ++
      [(match encodeResponse resp with
        | Except.error e =>
          ⟨LevelError, "Failed to encode JSON response",
            logAttrs ++ [⟨"encoding_error", AttrVal.errv e⟩]⟩
        | Except.ok _ =>
          ⟨logLevelOf statusCode,
            (if 400 ≤ statusCode then
              if 500 ≤ statusCode then "HTTP server error response sent"
              else "HTTP client error response sent"
            else "HTTP response sent"), logAttrs⟩)]
    envelope := resp
    snapshot := reqInfo }

/-- The envelope dispatch builds, as a function of the four response
arguments alone. -/
def mkEnvelope (statusCode0 : Int) (message0 : String) (data : Payload)
    (details : Option (List (String × String))) : Response :=
  let statusCode := (validateStatusCode statusCode0).1
  ⟨statusOf statusCode, statusCode, getMessageForStatus statusCode message0, data,
    errorInfoOf statusCode details⟩

/-- The body dispatch writes, as a function of the four response arguments
alone. -/
def encodedBody (c : Int) (m : String) (d : Payload)
    (det : Option (List (String × String))) : Option Json :=
  match encodeResponse (mkEnvelope c m d det) with
  | Except.ok j => some j
  | Except.error _ => none

/-- The accumulated log attributes of one `HTTPResponse` call, as a
function of its arguments. -/
def hrAttrs (r : Option Request) (c : Int) (m : String)
    (det : Option (List (String × String))) : List Attr :=
  logAttrsOf (validateStatusCode c).1 (statusOf (validateStatusCode c).1)
    (getMessageForStatus (validateStatusCode c).1 m) (hrSnapshotOf r)
    (errorInfoOf (validateStatusCode c).1 det)

/-- The last log record of a `HTTPResponse` call: the encode-failure
record, or the final per-response record. -/
def hrLastRecord (r : Option Request) (c : Int) (m : String) (d : Payload)
    (det : Option (List (String × String))) : LogRecord :=
  match encodeResponse (mkEnvelope c m d det) with
  | Except.error e =>
    ⟨LevelError, "Failed to encode JSON response",
      hrAttrs r c m det ++ [⟨"encoding_error", AttrVal.errv e⟩]⟩
  | Except.ok _ =>
    ⟨logLevelOf (validateStatusCode c).1, logMessageOf (validateStatusCode c).1,
      hrAttrs r c m det⟩

/-- The accumulated log attributes of one `JSONResponse` call. -/
def jrAttrs (r : Option Request) (c : Int) (m : String)
    (det : Option (List (String × String))) : List Attr :=
  logAttrsOf (validateStatusCode c).1 (statusOf (validateStatusCode c).1)
    (getMessageForStatus (validateStatusCode c).1 m) (jrSnapshotOf r)
    (errorInfoOf (validateStatusCode c).1 det)

/-- The last log record of a `JSONResponse` call. -/
def jrLastRecord (r : Option Request) (c : Int) (m : String) (d : Payload)
    (det : Option (List (String × String))) : LogRecord :=
  match encodeResponse (mkEnvelope c m d det) with
  | Except.error e =>
    ⟨LevelError, "Failed to encode JSON response",
      jrAttrs r c m det ++ [⟨"encoding_error", AttrVal.errv e⟩]⟩
  | Except.ok _ =>
    ⟨logLevelOf (validateStatusCode c).1,
      (if 400 ≤ (validateStatusCode c).1 then
        if 500 ≤ (validateStatusCode c).1 then "HTTP server error response sent"
        else "HTTP client error response sent"
      else "HTTP response sent"), jrAttrs r c m det⟩

theorem HTTPResponse_envelope (r : Option Request) (c : Int) (m : String) (d : Payload)
    (det : Option (List (String × String))) :
    (HTTPResponse r c m d det).envelope = mkEnvelope c m d det := rfl

theorem HTTPResponse_headers (r : Option Request) (c : Int) (m : String) (d : Payload)
    (det : Option (List (String × String))) :
    (HTTPResponse r c m d det).headers = stdHeaders := rfl

theorem HTTPResponse_statusLines (r : Option Request) (c : Int) (m : String) (d : Payload)
    (det : Option (List (String × String))) :
    (HTTPResponse r c m d det).statusLines = [(validateStatusCode c).1] := rfl

theorem HTTPResponse_snapshot (r : Option Request) (c : Int) (m : String) (d : Payload)
    (det : Option (List (String × String))) :
    (HTTPResponse r c m d det).snapshot = hrSnapshotOf r := rfl

theorem HTTPResponse_body (r : Option Request) (c : Int) (m : String) (d : Payload)
    (det : Option (List (String × String))) :
    (HTTPResponse r c m d det).body = encodedBody c m d det := rfl

theorem HTTPResponse_logs (r : Option Request) (c : Int) (m : String) (d : Payload)
    (det : Option (List (String × String))) :
    (HTTPResponse r c m d det).logs =
      (validateStatusCode c).2 ++ nilWarnOf r ++ [hrLastRecord r c m d det] := rfl

theorem JSONResponse_logs (r : Option Request) (c : Int) (m : String) (d : Payload)
    (det : Option (List (String × String))) :
    (JSONResponse r c m d det).logs =
      (validateStatusCode c).2 ++ nilWarnOf r ++ [jrLastRecord r c m d det] := rfl

theorem validateStatusCode_in_range (c : Int) (h1 : 100 ≤ c) (h2 : c ≤ 599) :
    validateStatusCode c = (c, []) := by
  unfold validateStatusCode
  rw [if_neg (by omega)]

theorem validate_logs_msg (c : Int) (rec : LogRecord)
    (h : rec ∈ (validateStatusCode c).2) :
    rec.msg = "Invalid HTTP status code provided, using 500" := by
  unfold validateStatusCode at h
  split at h
  · simp only [List.mem_singleton] at h
    rw [h]
    rfl
  · simp at h

theorem nilWarnOf_msg (r : Option Request) (rec : LogRecord) (h : rec ∈ nilWarnOf r) :
    rec.msg = "JSON response called with nil request" := by
  cases r with
  | some req => simp [nilWarnOf] at h
  | none =>
    simp only [nilWarnOf, List.mem_singleton] at h
    rw [h]
    rfl

theorem getLast_append_singleton {α : Type} (l : List α) (a : α) :
    (l ++ [a]).getLast? = some a := by
  rw [List.getLast?_append_cons]
  rfl

theorem encodeResponse_statusCode (resp : Response) (j : Json)
    (h : encodeResponse resp = Except.ok j) :
    j.lookupField "statusCode" = some (Json.num resp.StatusCode) := by
  unfold encodeResponse at h
  cases hp : encodePayload resp.Data with
  | error e => rw [hp] at h; cases h
  | ok df =>
    rw [hp] at h
    injection h with h'
    subst h'
    simp [Json.lookupField, lookupKey]

theorem errorTypeFor_ne_empty (c : Int) : errorTypeFor c ≠ "" := by
  unfold errorTypeFor
  cases h : statusConfigMap c with
  | none => decide
  | some cfg =>
    dsimp only
    by_cases he : cfg.ErrorType = ""
    · rw [if_neg (not_not_intro he)]
      decide
    · rw [if_pos he]
      exact he

theorem xff_guard_eq (s : String) :
    (if s ≠ "" then List.find? goParseIP ((splitOnComma s).map trimSpace) else none) =
      List.find? goParseIP ((splitOnComma s).map trimSpace) := by
  by_cases h : s = ""
  · rw [h]
    rfl
  · rw [if_pos h]

theorem xreal_guard_eq (s : String) :
    (if s ≠ "" then (if goParseIP (trimSpace s) then some (trimSpace s) else none)
      else none) =
      (if goParseIP (trimSpace s) then some (trimSpace s) else none) := by
  by_cases h : s = ""
  · rw [h]
    rfl
  · rw [if_pos h]

/-- C1: for every status code in [100,599] and all message, data and
details arguments, dispatch writes exactly one status line carrying that
code, any JSON body it writes has a statusCode field equal to that code,
and whenever the data payload is serializable a body with that field is
written. -/
theorem dispatch_status_line_and_body_code (r : Option Request) (c : Int) (m : String)
    (d : Payload) (det : Option (List (String × String))) (h1 : 100 ≤ c) (h2 : c ≤ 599) :
    (HTTPResponse r c m d det).statusLines = [c] ∧
    (∀ j, (HTTPResponse r c m d det).body = some j →
      j.lookupField "statusCode" = some (Json.num c)) ∧
    (∀ df, encodePayload d = Except.ok df →
      ∃ j, (HTTPResponse r c m d det).body = some j ∧
        j.lookupField "statusCode" = some (Json.num c)) := by
  have hv : validateStatusCode c = (c, []) := validateStatusCode_in_range c h1 h2
  have hsc : (mkEnvelope c m d det).StatusCode = c := by
    unfold mkEnvelope
    rw [hv]
  refine ⟨?_, ?_, ?_⟩
  · rw [HTTPResponse_statusLines, hv]
  · intro j hj
    rw [HTTPResponse_body] at hj
    unfold encodedBody at hj
    cases henc : encodeResponse (mkEnvelope c m d det) with
    | error e => rw [henc] at hj; cases hj
    | ok j' =>
      rw [henc] at hj
      injection hj with hj'
      rw [← hj']
      rw [encodeResponse_statusCode (mkEnvelope c m d det) j' henc, hsc]
  · intro df hdf
    cases henc : encodeResponse (mkEnvelope c m d det) with
    | error e =>
      exfalso
      unfold encodeResponse at henc
      have hd : (mkEnvelope c m d det).Data = d := rfl
      rw [hd, hdf] at henc
      cases henc
    | ok j =>
      refine ⟨j, ?_, ?_⟩
      · rw [HTTPResponse_body]
        unfold encodedBody
        rw [henc]
      · rw [encodeResponse_statusCode (mkEnvelope c m d det) j henc, hsc]

/-- C1 witness: dispatch at status 200 writes exactly the status line 200. -/
theorem dispatch_status_line_and_body_code_witness :
    (HTTPResponse none 200 "ok" Payload.nilP none).statusLines = [200] :=
  (dispatch_status_line_and_body_code none 200 "ok" Payload.nilP none
    (by decide) (by decide)).1

/-- C2: in every dispatch call the envelope has status "error" exactly when
its (validated) status code is at least 400, and the error field is present
exactly when the status is "error". -/
theorem dispatch_error_status_iff (r : Option Request) (c : Int) (m : String)
    (d : Payload) (det : Option (List (String × String))) :
    ((HTTPResponse r c m d det).envelope.Status = "error" ↔
      400 ≤ (HTTPResponse r c m d det).envelope.StatusCode) ∧
    ((HTTPResponse r c m d det).envelope.Error ≠ none ↔
      (HTTPResponse r c m d det).envelope.Status = "error") := by
  rw [HTTPResponse_envelope]
  have hs : (mkEnvelope c m d det).Status = statusOf (validateStatusCode c).1 := rfl
  have hc : (mkEnvelope c m d det).StatusCode = (validateStatusCode c).1 := rfl
  have he : (mkEnvelope c m d det).Error = errorInfoOf (validateStatusCode c).1 det := rfl
  rw [hs, hc, he]
  by_cases h : 400 ≤ (validateStatusCode c).1
  · simp [statusOf, errorInfoOf, h]
  · simp [statusOf, errorInfoOf, h]

/-- C3: the client-IP resolver equals the spec's precedence chain — first
valid X-Forwarded-For token after comma-split and trim, then trimmed
X-Real-IP when valid, then the host part of the remote address when valid,
then the raw remote address — and is total by construction. -/
theorem getClientIP_matches_spec (r : Request) : getClientIP r = resolveClientIPSpec r := by
  unfold getClientIP resolveClientIPSpec
  rw [xff_guard_eq, xreal_guard_eq]
  cases List.find? goParseIP ((splitOnComma r.xForwardedFor).map trimSpace) with
  | some ip => rfl
  | none =>
    by_cases h : goParseIP (trimSpace r.xRealIP)
    · simp [h]
    · simp [h]

/-- C4: message resolution returns the provided message verbatim when
non-empty, else the registered default, else the hundreds-digit class
fallback, exactly as the spec words it. -/
theorem getMessageForStatus_matches_spec (c : Int) (m : String) :
    getMessageForStatus c m = resolveMessageSpec c m := rfl

/-- C5: for every status code outside [100,599], validation substitutes 500
and produces the warning record, dispatch writes the status line 500, and
the warning appears among the call's logs — a response is still produced,
nothing fails. -/
theorem invalid_code_corrected_to_500 (r : Option Request) (c : Int) (m : String)
    (d : Payload) (det : Option (List (String × String))) (h : c < 100 ∨ 599 < c) :
    validateStatusCode c = (500, [invalidCodeWarn c]) ∧
    (HTTPResponse r c m d det).statusLines = [500] ∧
    invalidCodeWarn c ∈ (HTTPResponse r c m d det).logs := by
  have hv : validateStatusCode c = (500, [invalidCodeWarn c]) := by
    unfold validateStatusCode
    rw [if_pos h]
  refine ⟨hv, ?_, ?_⟩
  · rw [HTTPResponse_statusLines, hv]
  · rw [HTTPResponse_logs, hv]
    simp

/-- C5 witness: status code 700 is corrected to a 500 status line. -/
theorem invalid_code_corrected_to_500_witness :
    (HTTPResponse none 700 "" Payload.nilP none).statusLines = [500] :=
  (invalid_code_corrected_to_500 none 700 "" Payload.nilP none (by decide)).2.1

/-- C6 counterexample: a nil-request `HTTPResponse` call does not use the
all-"UNKNOWN" placeholder snapshot the claim asserts; it keeps the
zero-value snapshot. -/
theorem nil_request_snapshot_counterexample :
    (HTTPResponse none 200 "" Payload.nilP none).snapshot ≠ unknownRequestInfo := by
  decide

/-- C6 amended: on a nil request both dispatch variants emit the warning
and response construction is unaffected, but only the legacy
`JSONResponse` uses the all-"UNKNOWN" placeholder; `HTTPResponse` keeps
the zero-value snapshot with all four fields empty. -/
theorem nil_request_sentinel_behavior (c : Int) (m : String) (d : Payload)
    (det : Option (List (String × String))) (req : Request) :
    (HTTPResponse none c m d det).snapshot = zeroRequestInfo ∧
    nilRequestWarn ∈ (HTTPResponse none c m d det).logs ∧
    (JSONResponse none c m d det).snapshot = unknownRequestInfo ∧
    nilRequestWarn ∈ (JSONResponse none c m d det).logs ∧
    (HTTPResponse none c m d det).headers = (HTTPResponse (some req) c m d det).headers ∧
    (HTTPResponse none c m d det).statusLines =
      (HTTPResponse (some req) c m d det).statusLines ∧
    (HTTPResponse none c m d det).body = (HTTPResponse (some req) c m d det).body := by
  refine ⟨rfl, ?_, rfl, ?_, rfl, rfl, rfl⟩
  · rw [HTTPResponse_logs]
    simp [nilWarnOf]
  · rw [JSONResponse_logs]
    simp [nilWarnOf]

/-- C7: on the error path the envelope's ErrorDetail carries the registered
profile's error type when registered and non-empty, else "unknown_error";
whenever an ErrorDetail is present its type is non-empty. -/
theorem dispatch_error_type (r : Option Request) (c : Int) (m : String) (d : Payload)
    (det : Option (List (String × String))) :
    (400 ≤ (validateStatusCode c).1 →
      (HTTPResponse r c m d det).envelope.Error =
        some ⟨errorTypeFor (validateStatusCode c).1, det⟩) ∧
    (∀ ei, (HTTPResponse r c m d det).envelope.Error = some ei → ei.Type' ≠ "") := by
  rw [HTTPResponse_envelope]
  have he : (mkEnvelope c m d det).Error = errorInfoOf (validateStatusCode c).1 det := rfl
  rw [he]
  constructor
  · intro h
    unfold errorInfoOf
    rw [if_pos h]
  · intro ei hei
    unfold errorInfoOf at hei
    split at hei
    · injection hei with h'
      rw [← h']
      exact errorTypeFor_ne_empty (validateStatusCode c).1
    · cases hei

/-- C7 witness: a 404 dispatch carries the registered "not_found" type. -/
theorem dispatch_error_type_witness :
    (HTTPResponse none 404 "" Payload.nilP none).envelope.Error =
      some ⟨"not_found", none⟩ :=
  (dispatch_error_type none 404 "" Payload.nilP none).1 (by decide)

/-- C8: when serializing the envelope fails, dispatch writes no body, its
last log record is the error-severity encode-failure record carrying the
accumulated attributes plus the serialization error, and no final
per-response record is emitted; the function still returns normally. -/
theorem encode_failure_logged_and_contained (r : Option Request) (c : Int) (m : String)
    (d : Payload) (det : Option (List (String × String))) (e : String)
    (h : encodeResponse (HTTPResponse r c m d det).envelope = Except.error e) :
    (HTTPResponse r c m d det).body = none ∧
    (HTTPResponse r c m d det).logs.getLast? =
      some ⟨LevelError, "Failed to encode JSON response",
        hrAttrs r c m det ++ [⟨"encoding_error", AttrVal.errv e⟩]⟩ ∧
    (∀ rec ∈ (HTTPResponse r c m d det).logs,
      rec.msg ≠ "HTTP response sent" ∧ rec.msg ≠ "HTTP client error response sent" ∧
        rec.msg ≠ "HTTP server error response sent") := by
  rw [HTTPResponse_envelope] at h
  refine ⟨?_, ?_, ?_⟩
  · rw [HTTPResponse_body]
    unfold encodedBody
    rw [h]
  · rw [HTTPResponse_logs, getLast_append_singleton]
    unfold hrLastRecord
    rw [h]
  · intro rec hrec
    rw [HTTPResponse_logs] at hrec
    simp only [List.mem_append, List.mem_singleton] at hrec
    rcases hrec with (hrec | hrec) | hrec
    · rw [validate_logs_msg c rec hrec]
      exact ⟨by decide, by decide, by decide⟩
    · rw [nilWarnOf_msg r rec hrec]
      exact ⟨by decide, by decide, by decide⟩
    · rw [hrec]
      unfold hrLastRecord
      rw [h]
      dsimp only
      exact ⟨by decide, by decide, by decide⟩

/-- C8 witness: a non-serializable payload yields no body. -/
theorem encode_failure_logged_and_contained_witness :
    (HTTPResponse none 200 "x" (Payload.bad "chan int") none).body = none :=
  (encode_failure_logged_and_contained none 200 "x" (Payload.bad "chan int") none
    "json: unsupported type: chan int" (by rfl)).1

/-- C9: encoding an envelope whose data and error are both absent yields an
object with no "data" and no "error" key at all. -/
theorem empty_optional_fields_omitted (st : String) (sc : Int) (msg : String) :
    encodeResponse ⟨st, sc, msg, Payload.nilP, none⟩ =
      Except.ok (Json.obj [("status", Json.str st), ("statusCode", Json.num sc),
        ("message", Json.str msg)]) ∧
    (Json.obj [("status", Json.str st), ("statusCode", Json.num sc),
      ("message", Json.str msg)]).lookupField "data" = none ∧
    (Json.obj [("status", Json.str st), ("statusCode", Json.num sc),
      ("message", Json.str msg)]).lookupField "error" = none :=
  ⟨rfl, rfl, rfl⟩

/-- C10: the HTTP response output — headers, status line and JSON body — of
both dispatch variants is fully determined by the four response arguments;
two calls differing only in the request (nil or not) write identical
responses. -/
theorem response_bytes_independent_of_request (r r' : Option Request) (c : Int) (m : String)
    (d : Payload) (det : Option (List (String × String))) :
    (HTTPResponse r c m d det).headers = (HTTPResponse r' c m d det).headers ∧
    (HTTPResponse r c m d det).statusLines = (HTTPResponse r' c m d det).statusLines ∧
    (HTTPResponse r c m d det).body = (HTTPResponse r' c m d det).body ∧
    (JSONResponse r c m d det).headers = (JSONResponse r' c m d det).headers ∧
    (JSONResponse r c m d det).statusLines = (JSONResponse r' c m d det).statusLines ∧
    (JSONResponse r c m d det).body = (JSONResponse r' c m d det).body :=
  ⟨rfl, rfl, rfl, rfl, rfl, rfl⟩

end Responses
